import Mathlib

/-!
Verification development for the Amazon price-scraping tool
(`amazon_price_core.py` / `amazon_price_gui.py`).

The HTML-extraction layer is modelled as pure functions over the texts that
the CSS selectors would produce; the price/shipping-fee cleaning helpers,
offer deduplication, fulfillment classification, the band/median price
selection, and the GUI row assembly are embedded directly from the source.
Python's `sorted` (a stable sort by key) is modelled with
`List.insertionSort`, which is stable for the same ordering.  The Python
float band bounds `multiplier * base_price` are modelled as exact rationals;
the comparisons are implemented by integer cross-multiplication, which is
proved equivalent to the rational inequalities below.
-/

namespace AmazonPrice

/-- Substring test on character lists: does the second list occur as a
contiguous run inside the first?  Models Python's `needle in haystack`. -/
def hasPrefixChars : List Char → List Char → Bool
  | [], _ => true
  | _ :: _, [] => false
  | a :: as, b :: bs => a == b && hasPrefixChars as bs

/-- `containsChars hay needle` is true iff `needle` occurs contiguously in `hay`. -/
def containsChars : List Char → List Char → Bool
  | [], needle => needle.isEmpty
  | c :: rest, needle => hasPrefixChars needle (c :: rest) || containsChars rest needle

/-- Python's `needle in hay` for strings. -/
def strContains (hay needle : String) : Bool :=
  containsChars hay.toList needle.toList

/-- Decimal value of a list of digit characters (as produced by `int(...)`). -/
def digitsToNat (l : List Char) : ℕ :=
  l.foldl (fun n c => n * 10 + (c.toNat - 48)) 0

/-- A character matched by the regex class `[\d,]`. -/
def isPriceChar (c : Char) : Bool := c.isDigit || c == ','

/-- Maximal runs of `[\d,]` characters, models `re.findall(r'[\d,]+', s)`.
The accumulator holds the current run in reverse. -/
def priceRunsAux : List Char → List Char → List (List Char)
  | [], acc => if acc.isEmpty then [] else [acc.reverse]
  | c :: cs, acc =>
    if isPriceChar c then priceRunsAux cs (c :: acc)
    else if acc.isEmpty then priceRunsAux cs []
    else acc.reverse :: priceRunsAux cs []

/-- `_clean_price`: `None`/empty text gives no price; otherwise take the last
run of `[\d,]`, drop the commas, and read the digits (`None` if none left). -/
def cleanPrice (priceText : Option String) : Option ℕ :=
  match priceText with
  | none => none
  | some s =>
    if s.isEmpty then none
    else
      match (priceRunsAux s.toList []).getLast? with
      | none => none
      | some run =>
        let digits := run.filter fun c => c != ','
        if digits.isEmpty then none else some (digitsToNat digits)

/-- `_clean_shipping_fee`: `None`/empty or a 無料 (free) marker gives 0;
otherwise strip every non-digit and read the digits (0 if none). -/
def cleanShippingFee (shippingText : Option String) : ℕ :=
  match shippingText with
  | none => 0
  | some s =>
    if s.isEmpty then 0
    else if strContains s "無料" then 0
    else
      let digits := s.toList.filter Char.isDigit
      if digits.isEmpty then 0 else digitsToNat digits

/-- Maximal non-whitespace runs, models `s.split()` with no separator.
The accumulator holds the current word in reverse. -/
def wordRuns : List Char → List Char → List (List Char)
  | [], acc => if acc.isEmpty then [] else [acc.reverse]
  | c :: cs, acc =>
    if c.isWhitespace then
      if acc.isEmpty then wordRuns cs [] else acc.reverse :: wordRuns cs []
    else wordRuns cs (c :: acc)

/-- `' '.join(s.split())`: collapse whitespace runs to single spaces. -/
def normalizeSpace (s : String) : String :=
  String.intercalate " " ((wordRuns s.toList []).map fun w => String.mk w)

/-- Search for the regex `残り(\d+)点` anchored at the head of the list. -/
def matchRemainAt (l : List Char) : Option ℕ :=
  match l with
  | '残' :: 'り' :: rest =>
    let digits := rest.takeWhile Char.isDigit
    let after := rest.dropWhile Char.isDigit
    if digits.isEmpty then none
    else
      match after with
      | '点' :: _ => some (digitsToNat digits)
      | _ => none
  | _ => none

/-- `re.search(r'残り(\d+)点', s)`: leftmost match of the stock-count pattern. -/
def findRemaining : List Char → Option ℕ
  | [] => none
  | c :: cs =>
    match matchRemainAt (c :: cs) with
    | some n => some n
    | none => findRemaining cs

/-- A normalized offer as built by `_parse_side_panel_offers` (or derived from
the buy-box once its price parsed).  All parsed prices and fees are
non-negative integers. -/
structure Offer where
  price : ℕ
  shippingFee : ℕ
  seller : String
  shipper : String
  condition : String
  deriving DecidableEq

/-- Buy-box snapshot from `_parse_main_page_buybox`.  `price = none` stands for
the unparsed sentinel ('N/A' / `None` in the source). -/
structure BuyBox where
  price : Option ℕ
  seller : String
  shipper : String
  realStock : ℕ
  shippingFee : ℕ
  condition : String
  deriving DecidableEq

/-- Total price of an offer: `price + shipping_fee`. -/
def totalPrice (o : Offer) : ℕ := o.price + o.shippingFee

/-- The composite dedup key `(price, seller, shipper)`. -/
def offerKey (o : Offer) : ℕ × String × String := (o.price, o.seller, o.shipper)

/-- The buy-box identifier `(price, seller, shipper)` used in step 5; the
price component may be unparsed. -/
def buyboxKey (b : BuyBox) : Option ℕ × String × String := (b.price, b.seller, b.shipper)

/-- An offer's identifier in the same shape as `buyboxKey`. -/
def offerKeyOpt (o : Offer) : Option ℕ × String × String := (some o.price, o.seller, o.shipper)

/-- The sort order used by every `sorted(..., key=total price)` call. -/
def leTotal (a b : Offer) : Prop := totalPrice a ≤ totalPrice b

instance : DecidableRel leTotal :=
  fun a b => inferInstanceAs (Decidable (totalPrice a ≤ totalPrice b))

instance : IsTotal Offer leTotal := ⟨fun a b => Nat.le_total (totalPrice a) (totalPrice b)⟩

instance : IsTrans Offer leTotal := ⟨fun _ _ _ h h' => Nat.le_trans h h'⟩

/-- Selector texts available to `_parse_main_page_buybox`; `none` means the
corresponding node is absent. -/
structure MainPageInput where
  priceText : Option String
  availabilityText : Option String
  sellerText : Option String
  shipperText : Option String

/-- `_parse_main_page_buybox`: price from the price node, condition 新品 iff a
price parsed, real stock 30 on 在庫あり else the 残りN点 count else 0,
seller/shipper text with the `N/A` sentinel on absence. -/
def parseMainPageBuybox (inp : MainPageInput) : BuyBox :=
  let price := match inp.priceText with
    | none => none
    | some t => cleanPrice (some t)
  let condition := if price.isSome then "新品" else "N/A"
  let realStock : ℕ := match inp.availabilityText with
    | none => 0
    | some t =>
      if strContains t "在庫あり" then 30
      else (findRemaining t.toList).getD 0
  { price := price, seller := inp.sellerText.getD "N/A",
    shipper := inp.shipperText.getD "N/A", realStock := realStock,
    shippingFee := 0, condition := condition }

/-- Selector texts of one `#aod-offer` entry in the side panel. -/
structure PanelEntry where
  conditionText : Option String
  priceText : Option String
  deliveryPriceAttr : Option String
  shippingChargeText : Option String
  sellerText : Option String
  shipperText : Option String

/-- One iteration of the `_parse_side_panel_offers` loop: skip when the
condition span is missing, when the normalized condition contains 中古 (Used),
or when no price parses; otherwise build the offer. -/
def parsePanelEntry (e : PanelEntry) : Option Offer :=
  match e.conditionText with
  | none => none
  | some ct =>
    let condText := normalizeSpace ct
    if strContains condText "中古" then none
    else
      match cleanPrice e.priceText with
      | none => none
      | some price =>
        let shippingFee := match e.deliveryPriceAttr with
          | some a => cleanShippingFee (some a)
          | none =>
            match e.shippingChargeText with
            | some t => cleanShippingFee (some t)
            | none => 0
        some { price := price, shippingFee := shippingFee,
               seller := e.sellerText.getD "N/A",
               shipper := e.shipperText.getD "N/A", condition := condText }

/-- `_parse_side_panel_offers`: every non-skipped entry, in page order. -/
def parseSidePanelOffers (entries : List PanelEntry) : List Offer :=
  entries.filterMap parsePanelEntry

/-- The buy-box-derived offer, present only when its price parsed
(`isinstance(buybox_data['price'], int)`). -/
def buyboxOffers (b : BuyBox) : List Offer :=
  match b.price with
  | some p => [{ price := p, shippingFee := b.shippingFee, seller := b.seller,
                 shipper := b.shipper, condition := b.condition }]
  | none => []

/-- Step 3 merge: buy-box offer (if priced) first, then all panel offers. -/
def mergedOffers (b : BuyBox) (sideOffers : List Offer) : List Offer :=
  buyboxOffers b ++ sideOffers

/-- The dedup loop with its `seen` set of composite keys. -/
def dedupAux : List Offer → List (ℕ × String × String) → List Offer
  | [], _ => []
  | o :: rest, seen =>
    if offerKey o ∈ seen then dedupAux rest seen
    else o :: dedupAux rest (offerKey o :: seen)

/-- The `unique_offers` construction: keep the first offer for each
`(price, seller, shipper)` key, preserving order. -/
def dedupOffers (l : List Offer) : List Offer := dedupAux l []

/-- The unique offer set of a resolution. -/
def uniqueOffersOf (b : BuyBox) (sideOffers : List Offer) : List Offer :=
  dedupOffers (mergedOffers b sideOffers)

/-- `price_lower_bound <= total <= price_upper_bound` where the bounds are the
exact products `lower * basePrice` and `upper * basePrice`; implemented by
integer cross-multiplication against the rationals' numerators/denominators. -/
def inBand (lower upper : ℚ) (basePrice total : ℕ) : Bool :=
  decide (lower.num * (basePrice : ℤ) ≤ (total : ℤ) * (lower.den : ℤ)) &&
  decide ((total : ℤ) * (upper.den : ℤ) ≤ upper.num * (basePrice : ℤ))

/-- Outcome of step 4 (最適価格の算出): the optimal-price fields together with
the `price_group` and `effective_sellers_count` it produced. -/
structure OptimalSelection where
  optimalPrice : Option ℕ
  optimalPriceCondition : String
  optimalPriceShipper : String
  optimalPriceSeller : String
  priceGroup : List Offer
  effectiveSellersCount : ℕ

/-- A default offer used only to give `List.getD` a value at in-range indices. -/
def defaultOffer : Offer :=
  { price := 0, shippingFee := 0, seller := "N/A", shipper := "N/A", condition := "N/A" }

/-- The band/median branch of step 4: with at least 3 unique offers, the
reference is index 2 of the ascending sort, the group is the in-band offers,
and with at least 3 in-band offers the median (lower middle on even counts)
supplies the optimal fields; otherwise the group is all offers and the
optimal price stays unresolved (`none` models the 'N/A' sentinel). -/
def bandSelection (uniqueOffers : List Offer) (lower upper : ℚ) : OptimalSelection :=
  let sortedForGrouping := List.insertionSort leTotal uniqueOffers
  if 3 ≤ sortedForGrouping.length then
    let basePrice := totalPrice (sortedForGrouping.getD 2 defaultOffer)
    let priceGroup := sortedForGrouping.filter fun o =>
      inBand lower upper basePrice (totalPrice o)
    let effectiveSellersCount := priceGroup.length
    if 3 ≤ effectiveSellersCount then
      let sortedPriceGroup := List.insertionSort leTotal priceGroup
      let n := sortedPriceGroup.length
      let medianIndex := if n % 2 = 1 then n / 2 else n / 2 - 1
      let medianOffer := sortedPriceGroup.getD medianIndex defaultOffer
      { optimalPrice := some (totalPrice medianOffer),
        optimalPriceCondition := medianOffer.condition,
        optimalPriceShipper := medianOffer.shipper,
        optimalPriceSeller := medianOffer.seller,
        priceGroup := priceGroup,
        effectiveSellersCount := effectiveSellersCount }
    else
      { optimalPrice := none, optimalPriceCondition := "N/A",
        optimalPriceShipper := "N/A", optimalPriceSeller := "N/A",
        priceGroup := priceGroup,
        effectiveSellersCount := effectiveSellersCount }
  else
    { optimalPrice := none, optimalPriceCondition := "N/A",
      optimalPriceShipper := "N/A", optimalPriceSeller := "N/A",
      priceGroup := sortedForGrouping,
      effectiveSellersCount := sortedForGrouping.length }

/-- The buy-box-trust guard: `real_stock > 2`, an integer price, and an
Amazon-fulfilled shipper. -/
def buyboxTrusted (b : BuyBox) : Bool :=
  decide (2 < b.realStock) && b.price.isSome && strContains b.shipper "Amazon"

/-- Step 4: trust the buy-box when the guard holds (its total price and fields
become optimal, the group is the whole unique set); otherwise run the band
selection. -/
def computeOptimal (b : BuyBox) (uniqueOffers : List Offer) (lower upper : ℚ) :
    OptimalSelection :=
  if buyboxTrusted b then
    { optimalPrice := some (b.price.getD 0 + b.shippingFee),
      optimalPriceCondition := b.condition,
      optimalPriceShipper := b.shipper,
      optimalPriceSeller := b.seller,
      priceGroup := uniqueOffers,
      effectiveSellersCount := uniqueOffers.length }
  else bandSelection uniqueOffers lower upper

/-- The success payload of `get_product_data`. -/
structure SuccessData where
  realStock : ℕ
  totalOffers : ℕ
  fbaCount : ℕ
  fbmCount : ℕ
  inventoryScore : ℕ
  effectiveSellersCount : ℕ
  buyboxInfo : BuyBox
  offers : List Offer
  optimalPrice : Option ℕ
  optimalPriceCondition : String
  optimalPriceShipper : String
  optimalPriceSeller : String
  deriving DecidableEq

/-- `get_product_data` steps 3-5 on already-parsed pages: merge, dedup, count
FBA/FBM and the inventory score, select the optimal price, and drop the
buy-box's own entry from the displayed, ascending-sorted offer list. -/
def getProductData (b : BuyBox) (sideOffers : List Offer) (lower upper : ℚ) :
    SuccessData :=
  let uniqueOffers := uniqueOffersOf b sideOffers
  let totalOffersCount := uniqueOffers.length
  let fbaCount := (uniqueOffers.filter fun o => strContains o.shipper "Amazon").length
  let fbmCount := totalOffersCount - fbaCount
  let inventoryScore := fbaCount * 2 + fbmCount
  let sel := computeOptimal b uniqueOffers lower upper
  let displayOffers := sel.priceGroup.filter fun o => !decide (offerKeyOpt o = buyboxKey b)
  let sortedDisplayOffers := List.insertionSort leTotal displayOffers
  { realStock := b.realStock, totalOffers := totalOffersCount,
    fbaCount := fbaCount, fbmCount := fbmCount, inventoryScore := inventoryScore,
    effectiveSellersCount := sel.effectiveSellersCount, buyboxInfo := b,
    offers := sortedDisplayOffers,
    optimalPrice := sel.optimalPrice,
    optimalPriceCondition := sel.optimalPriceCondition,
    optimalPriceShipper := sel.optimalPriceShipper,
    optimalPriceSeller := sel.optimalPriceSeller }

/-- A resolution either succeeds with a full payload or fails whole
(`_get_error_result`). -/
inductive ProductResult where
  | success (d : SuccessData)
  | error
  deriving DecidableEq

/-- The `try/except` boundary of `get_product_data`: a failed page resolution
(timeout or any unexpected fault, modelled by `none`) yields the error
result. -/
def resolveProduct (outcome : Option (BuyBox × List Offer)) (lower upper : ℚ) :
    ProductResult :=
  match outcome with
  | some (b, sideOffers) => .success (getProductData b sideOffers lower upper)
  | none => .error

/-- A spreadsheet cell value: an integer or a text. -/
inductive Cell where
  | num (n : ℕ)
  | str (s : String)
  deriving DecidableEq

/-- `MAX_OFFERS_TO_DISPLAY` from the GUI. -/
def MAX_OFFERS_TO_DISPLAY : ℕ := 10

/-- The GUI's stock-sufficiency test: well-stocked Amazon-fulfilled buy-box,
or inventory score at least 4. -/
def stockSufficient (d : SuccessData) : Bool :=
  (decide (2 < d.realStock) && strContains d.buyboxInfo.shipper "Amazon") ||
  decide (4 ≤ d.inventoryScore)

/-- The 在庫判定 cell text. -/
def stockStatusStr (d : SuccessData) : String :=
  if stockSufficient d then "十分" else "不十分"

/-- An optional price as a cell ('N/A' sentinel when unresolved). -/
def optCell (p : Option ℕ) : Cell :=
  match p with
  | some n => Cell.num n
  | none => Cell.str "N/A"

/-- The five cells written per displayed offer. -/
def offerCells (o : Offer) : List Cell :=
  [Cell.num o.price, Cell.num o.shippingFee, Cell.str o.condition,
   Cell.str o.shipper, Cell.str o.seller]

/-- The success row of `run_in_thread`: 15 fixed cells followed by five cells
for each of the first `MAX_OFFERS_TO_DISPLAY` displayed offers. -/
def successRow (d : SuccessData) : List Cell :=
  [optCell d.optimalPrice,
   Cell.str d.optimalPriceCondition,
   Cell.str d.optimalPriceShipper,
   Cell.str d.optimalPriceSeller,
   Cell.str (stockStatusStr d),
   Cell.num d.inventoryScore,
   Cell.num d.realStock,
   Cell.num d.effectiveSellersCount,
   Cell.num d.totalOffers,
   Cell.num d.fbaCount,
   Cell.num d.fbmCount,
   optCell d.buyboxInfo.price,
   Cell.str d.buyboxInfo.condition,
   Cell.str d.buyboxInfo.shipper,
   Cell.str d.buyboxInfo.seller] ++
  (d.offers.take MAX_OFFERS_TO_DISPLAY).flatMap offerCells

/-- The error row of `run_in_thread`: `["エラー"] * 15`. -/
def errorRow : List Cell := List.replicate 15 (Cell.str "エラー")

/-- The flattened output row written for a result. -/
def resultRow : ProductResult → List Cell
  | .success d => successRow d
  | .error => errorRow

/-! ### Deduplication lemmas -/

theorem dedupAux_sublist (l : List Offer) (seen : List (ℕ × String × String)) :
    (dedupAux l seen).Sublist l := by
  induction l generalizing seen with
  | nil => simp [dedupAux]
  | cons a rest ih =>
    simp only [dedupAux]
    split
    · exact (ih _).trans (List.sublist_cons_self a rest)
    · exact (ih _).cons₂ a

theorem key_not_seen_of_mem_dedupAux {o : Offer} {l : List Offer}
    {seen : List (ℕ × String × String)} (h : o ∈ dedupAux l seen) :
    offerKey o ∉ seen := by
  induction l generalizing seen with
  | nil => simp [dedupAux] at h
  | cons a rest ih =>
    simp only [dedupAux] at h
    split at h
    · exact ih h
    · rcases List.mem_cons.mp h with rfl | hmem
      · assumption
      · intro hseen
        exact ih hmem (List.mem_cons_of_mem _ hseen)

theorem keys_nodup_dedupAux (l : List Offer) (seen : List (ℕ × String × String)) :
    ((dedupAux l seen).map offerKey).Nodup := by
  induction l generalizing seen with
  | nil => simp [dedupAux]
  | cons a rest ih =>
    simp only [dedupAux]
    split
    · exact ih _
    · simp only [List.map_cons, List.nodup_cons]
      refine ⟨fun hmem => ?_, ih _⟩
      rcases List.mem_map.mp hmem with ⟨o, ho, hk⟩
      exact key_not_seen_of_mem_dedupAux ho (hk ▸ List.mem_cons_self _ _)

theorem dedupAux_eq_self {m : List Offer} {seen : List (ℕ × String × String)}
    (h1 : (m.map offerKey).Nodup) (h2 : ∀ o ∈ m, offerKey o ∉ seen) :
    dedupAux m seen = m := by
  induction m generalizing seen with
  | nil => simp [dedupAux]
  | cons a rest ih =>
    simp only [List.map_cons, List.nodup_cons] at h1
    have hnot : offerKey a ∉ seen := h2 a (List.mem_cons_self _ _)
    simp only [dedupAux, if_neg hnot]
    refine congrArg (a :: ·) (ih h1.2 fun o ho => ?_)
    intro hmem
    rcases List.mem_cons.mp hmem with hk | hk
    · exact h1.1 (List.mem_map.mpr ⟨o, ho, hk⟩)
    · exact h2 o (List.mem_cons_of_mem _ ho) hk

theorem dedupOffers_idem (l : List Offer) :
    dedupOffers (dedupOffers l) = dedupOffers l :=
  dedupAux_eq_self (keys_nodup_dedupAux l []) (fun o _ h => by simp at h)

theorem find?_of_mem_dedupAux {o : Offer} {l : List Offer}
    {seen : List (ℕ × String × String)} (h : o ∈ dedupAux l seen) :
    l.find? (fun x => decide (offerKey x = offerKey o)) = some o := by
  induction l generalizing seen with
  | nil => simp [dedupAux] at h
  | cons a rest ih =>
    simp only [dedupAux] at h
    split at h
    · have hne : offerKey a ≠ offerKey o := by
        intro hk
        exact key_not_seen_of_mem_dedupAux h (hk ▸ ‹offerKey a ∈ seen›)
      rw [List.find?_cons_of_neg _ (by simpa using hne)]
      exact ih h
    · rcases List.mem_cons.mp h with rfl | hmem
      · rw [List.find?_cons_of_pos _ (by simp)]
      · have hne : offerKey a ≠ offerKey o := by
          intro hk
          exact key_not_seen_of_mem_dedupAux hmem (hk ▸ List.mem_cons_self _ _)
        rw [List.find?_cons_of_neg _ (by simpa using hne)]
        exact ih hmem

theorem key_covered_of_mem (o : Offer) (l : List Offer)
    (seen : List (ℕ × String × String)) (h : o ∈ l) :
    offerKey o ∈ seen ∨ ∃ o' ∈ dedupAux l seen, offerKey o' = offerKey o := by
  induction l generalizing seen with
  | nil => simp at h
  | cons a rest ih =>
    simp only [dedupAux]
    by_cases hseen : offerKey a ∈ seen
    · rw [if_pos hseen]
      rcases List.mem_cons.mp h with rfl | hmem
      · exact Or.inl hseen
      · exact ih seen hmem
    · rw [if_neg hseen]
      rcases List.mem_cons.mp h with rfl | hmem
      · exact Or.inr ⟨o, List.mem_cons_self _ _, rfl⟩
      · rcases ih (offerKey a :: seen) hmem with hk | ⟨o', ho', hk⟩
        · rcases List.mem_cons.mp hk with hk | hk
          · exact Or.inr ⟨a, List.mem_cons_self _ _, hk.symm⟩
          · exact Or.inl hk
        · exact Or.inr ⟨o', List.mem_cons_of_mem _ ho', hk⟩

theorem mem_dedupOffers_sub {o : Offer} {l : List Offer}
    (h : o ∈ dedupOffers l) : o ∈ l :=
  (dedupAux_sublist l []).mem h

/-! ### Band-bound lemmas: the integer cross-multiplication in `inBand`
implements the inclusive rational band comparison. -/

theorem ratNumMul_le_iff (q : ℚ) (a b : ℕ) :
    q.num * (a : ℤ) ≤ (b : ℤ) * (q.den : ℤ) ↔ q * (a : ℚ) ≤ (b : ℚ) := by
  have h0 : (0:ℚ) < (q.den : ℚ) := by exact_mod_cast q.den_pos
  have h1 : q * (a:ℚ) * (q.den:ℚ) = ((q.num * a : ℤ) : ℚ) := by
    push_cast
    rw [mul_right_comm, Rat.mul_den_eq_num]
  rw [← mul_le_mul_right h0, h1]
  norm_cast

theorem le_ratNumMul_iff (q : ℚ) (a b : ℕ) :
    (b : ℤ) * (q.den : ℤ) ≤ q.num * (a : ℤ) ↔ (b : ℚ) ≤ q * (a : ℚ) := by
  have h0 : (0:ℚ) < (q.den : ℚ) := by exact_mod_cast q.den_pos
  have h1 : q * (a:ℚ) * (q.den:ℚ) = ((q.num * a : ℤ) : ℚ) := by
    push_cast
    rw [mul_right_comm, Rat.mul_den_eq_num]
  rw [← mul_le_mul_right h0, h1]
  norm_cast

theorem inBand_iff (lower upper : ℚ) (bp t : ℕ) :
    inBand lower upper bp t = true ↔
      (lower * (bp:ℚ) ≤ (t:ℚ) ∧ (t:ℚ) ≤ upper * (bp:ℚ)) := by
  unfold inBand
  rw [Bool.and_eq_true, decide_eq_true_eq, decide_eq_true_eq,
    ratNumMul_le_iff lower bp t, le_ratNumMul_iff upper bp t]

/-! ### Unfolding lemmas for the band/median branch -/

/-- The eligible ("price group") set of the band branch: in-band offers of the
ascending-sorted unique set, with the reference at sorted index 2. -/
def eligibleOf (u : List Offer) (lower upper : ℚ) : List Offer :=
  (List.insertionSort leTotal u).filter fun o =>
    inBand lower upper
      (totalPrice ((List.insertionSort leTotal u).getD 2 defaultOffer)) (totalPrice o)

/-- The median offer of the eligible set: lower middle element on even counts. -/
def medianOf (u : List Offer) (lower upper : ℚ) : Offer :=
  let g := List.insertionSort leTotal (eligibleOf u lower upper)
  g.getD (if g.length % 2 = 1 then g.length / 2 else g.length / 2 - 1) defaultOffer

theorem bandSelection_short {u : List Offer} (lower upper : ℚ) (h : u.length < 3) :
    bandSelection u lower upper =
      { optimalPrice := none, optimalPriceCondition := "N/A",
        optimalPriceShipper := "N/A", optimalPriceSeller := "N/A",
        priceGroup := List.insertionSort leTotal u,
        effectiveSellersCount := u.length } := by
  unfold bandSelection
  rw [if_neg (by rw [List.length_insertionSort]; omega), List.length_insertionSort]

theorem bandSelection_group {u : List Offer} (lower upper : ℚ) (h3 : 3 ≤ u.length) :
    (bandSelection u lower upper).priceGroup = eligibleOf u lower upper ∧
    (bandSelection u lower upper).effectiveSellersCount =
      (eligibleOf u lower upper).length := by
  unfold bandSelection eligibleOf
  simp only []
  rw [if_pos (by rw [List.length_insertionSort]; exact h3)]
  split <;> exact ⟨rfl, rfl⟩

theorem bandSelection_median {u : List Offer} (lower upper : ℚ) (h3 : 3 ≤ u.length)
    (he : 3 ≤ (eligibleOf u lower upper).length) :
    (bandSelection u lower upper).optimalPrice =
      some (totalPrice (medianOf u lower upper)) ∧
    (bandSelection u lower upper).optimalPriceCondition = (medianOf u lower upper).condition ∧
    (bandSelection u lower upper).optimalPriceShipper = (medianOf u lower upper).shipper ∧
    (bandSelection u lower upper).optimalPriceSeller = (medianOf u lower upper).seller := by
  unfold bandSelection medianOf eligibleOf
  rw [if_pos (by rw [List.length_insertionSort]; exact h3)]
  rw [if_pos (by exact he)]
  exact ⟨rfl, rfl, rfl, rfl⟩

theorem bandSelection_no_median {u : List Offer} (lower upper : ℚ) (h3 : 3 ≤ u.length)
    (he : (eligibleOf u lower upper).length < 3) :
    (bandSelection u lower upper).optimalPrice = none := by
  unfold eligibleOf at he
  unfold bandSelection
  simp only []
  rw [if_pos (by rw [List.length_insertionSort]; exact h3)]
  rw [if_neg (by omega)]

/-! ### Claim theorems -/

/-- C7: the merged sequence puts the buy-box-derived offer first exactly when
its price parsed, followed by the panel offers; deduplication keeps, for each
composite key `(price, seller, shipper)`, precisely the first occurrence
(witnessed by `find?`), preserves the original order (sublist), covers every
key, and is idempotent. -/
theorem c7_dedup_first_occurrence_idempotent (b : BuyBox) (sideOffers : List Offer) :
    (b.price = none → mergedOffers b sideOffers = sideOffers) ∧
    (∀ p : ℕ, b.price = some p →
      mergedOffers b sideOffers =
        { price := p, shippingFee := b.shippingFee, seller := b.seller,
          shipper := b.shipper, condition := b.condition } :: sideOffers) ∧
    dedupOffers (dedupOffers (mergedOffers b sideOffers)) =
      dedupOffers (mergedOffers b sideOffers) ∧
    (dedupOffers (mergedOffers b sideOffers)).Sublist (mergedOffers b sideOffers) ∧
    ((dedupOffers (mergedOffers b sideOffers)).map offerKey).Nodup ∧
    (∀ o ∈ mergedOffers b sideOffers,
      ∃ o' ∈ dedupOffers (mergedOffers b sideOffers), offerKey o' = offerKey o) ∧
    (∀ o ∈ dedupOffers (mergedOffers b sideOffers),
      (mergedOffers b sideOffers).find? (fun x => decide (offerKey x = offerKey o)) = some o) := by
  refine ⟨fun hp => by simp [mergedOffers, buyboxOffers, hp],
    fun p hp => by simp [mergedOffers, buyboxOffers, hp],
    dedupOffers_idem _, dedupAux_sublist _ _, keys_nodup_dedupAux _ _,
    fun o ho => ?_, fun o ho => find?_of_mem_dedupAux ho⟩
  rcases key_covered_of_mem o (mergedOffers b sideOffers) [] ho with hk | hcov
  · simp at hk
  · exact hcov

/-- C7 witness: on a concrete merged list with a duplicated key, the covering
clause produces a representative with the duplicate's key. -/
theorem c7_witness :
    ∃ o' ∈ dedupOffers (mergedOffers
      ⟨some 500, "S", "Amazon", 4, 0, "新品"⟩
      [⟨500, 0, "S", "Amazon", "新品"⟩, ⟨600, 10, "T", "M", "新品"⟩]),
      offerKey o' = offerKey ⟨500, 0, "S", "Amazon", "新品"⟩ :=
  (c7_dedup_first_occurrence_idempotent
    ⟨some 500, "S", "Amazon", 4, 0, "新品"⟩
    [⟨500, 0, "S", "Amazon", "新品"⟩, ⟨600, 10, "T", "M", "新品"⟩]).2.2.2.2.2.1
    ⟨500, 0, "S", "Amazon", "新品"⟩ (by decide)

/-- C1 (amended): a failed resolution yields the Error result, and its
flattened row is the error sentinel in each of its 15 cells — the 15 fixed
columns only, not the 65-column success schema. -/
theorem c1_error_row_fifteen_sentinels (lower upper : ℚ) :
    resolveProduct none lower upper = ProductResult.error ∧
    resultRow (resolveProduct none lower upper) = List.replicate 15 (Cell.str "エラー") ∧
    (resultRow (resolveProduct none lower upper)).length = 15 := by
  refine ⟨rfl, rfl, rfl⟩

/-- C1 counterexample: the error row has 15 cells, not the 65 (15 + 10×5)
that the claim asserts. -/
theorem c1_counterexample :
    (resultRow ProductResult.error).length = 15 ∧
    (resultRow ProductResult.error).length ≠ 15 + 10 * 5 := by decide

/-- The GUI's default lower multiplier 0.85, as an exact rational. -/
def lowerDefault : ℚ := ⟨17, 20, by decide, by decide⟩

/-- The GUI's default upper multiplier 1.15, as an exact rational. -/
def upperDefault : ℚ := ⟨23, 20, by decide, by decide⟩

/-- C2: with `realStock > 2`, a parsed buy-box price, and an Amazon-fulfilled
buy-box shipper, the optimal price is the buy-box total (price + shipping
fee), the optimal condition/shipper/seller are copied from the buy-box, the
eligible set is the whole unique offer set (no band filtering), and the
effective sellers count is its size. -/
theorem c2_buybox_trust (b : BuyBox) (sideOffers : List Offer) (lower upper : ℚ)
    (p : ℕ) (hp : b.price = some p) (hstock : 2 < b.realStock)
    (hfba : strContains b.shipper "Amazon" = true) :
    (getProductData b sideOffers lower upper).optimalPrice = some (p + b.shippingFee) ∧
    (getProductData b sideOffers lower upper).optimalPriceCondition = b.condition ∧
    (getProductData b sideOffers lower upper).optimalPriceShipper = b.shipper ∧
    (getProductData b sideOffers lower upper).optimalPriceSeller = b.seller ∧
    (computeOptimal b (uniqueOffersOf b sideOffers) lower upper).priceGroup =
      uniqueOffersOf b sideOffers ∧
    (getProductData b sideOffers lower upper).effectiveSellersCount =
      (uniqueOffersOf b sideOffers).length := by
  have ht : buyboxTrusted b = true := by
    simp [buyboxTrusted, hp, hstock, hfba]
  simp [getProductData, computeOptimal, ht, hp]

/-- C2 witness: a trusted buy-box at price 1000 with extra offers. -/
theorem c2_witness :
    (getProductData ⟨some 1000, "S", "Amazon.co.jp", 5, 0, "新品"⟩
      [⟨1200, 0, "T", "M", "新品"⟩, ⟨1300, 0, "U", "M", "新品"⟩]
      lowerDefault upperDefault).optimalPrice = some (1000 + 0) ∧
    (getProductData ⟨some 1000, "S", "Amazon.co.jp", 5, 0, "新品"⟩
      [⟨1200, 0, "T", "M", "新品"⟩, ⟨1300, 0, "U", "M", "新品"⟩]
      lowerDefault upperDefault).optimalPriceCondition = "新品" ∧
    (getProductData ⟨some 1000, "S", "Amazon.co.jp", 5, 0, "新品"⟩
      [⟨1200, 0, "T", "M", "新品"⟩, ⟨1300, 0, "U", "M", "新品"⟩]
      lowerDefault upperDefault).optimalPriceShipper = "Amazon.co.jp" ∧
    (getProductData ⟨some 1000, "S", "Amazon.co.jp", 5, 0, "新品"⟩
      [⟨1200, 0, "T", "M", "新品"⟩, ⟨1300, 0, "U", "M", "新品"⟩]
      lowerDefault upperDefault).optimalPriceSeller = "S" ∧
    (computeOptimal ⟨some 1000, "S", "Amazon.co.jp", 5, 0, "新品"⟩
      (uniqueOffersOf ⟨some 1000, "S", "Amazon.co.jp", 5, 0, "新品"⟩
        [⟨1200, 0, "T", "M", "新品"⟩, ⟨1300, 0, "U", "M", "新品"⟩])
      lowerDefault upperDefault).priceGroup =
      uniqueOffersOf ⟨some 1000, "S", "Amazon.co.jp", 5, 0, "新品"⟩
        [⟨1200, 0, "T", "M", "新品"⟩, ⟨1300, 0, "U", "M", "新品"⟩] ∧
    (getProductData ⟨some 1000, "S", "Amazon.co.jp", 5, 0, "新品"⟩
      [⟨1200, 0, "T", "M", "新品"⟩, ⟨1300, 0, "U", "M", "新品"⟩]
      lowerDefault upperDefault).effectiveSellersCount =
      (uniqueOffersOf ⟨some 1000, "S", "Amazon.co.jp", 5, 0, "新品"⟩
        [⟨1200, 0, "T", "M", "新品"⟩, ⟨1300, 0, "U", "M", "新品"⟩]).length :=
  c2_buybox_trust ⟨some 1000, "S", "Amazon.co.jp", 5, 0, "新品"⟩
    [⟨1200, 0, "T", "M", "新品"⟩, ⟨1300, 0, "U", "M", "新品"⟩]
    lowerDefault upperDefault 1000 rfl (by decide) (by decide)

/-- C8: with an untrusted buy-box and fewer than 3 unique offers there is no
band filtering: the eligible set (`price_group`) is all the unique offers —
the ascending-sorted unique list, a permutation of the unique set containing
exactly its members — the optimal price stays at the unresolved sentinel, and
the effective sellers count is the number of unique offers. -/
theorem c8_sparse_offers (b : BuyBox) (sideOffers : List Offer) (lower upper : ℚ)
    (hbt : buyboxTrusted b = false)
    (hlt : (uniqueOffersOf b sideOffers).length < 3) :
    (getProductData b sideOffers lower upper).optimalPrice = none ∧
    (computeOptimal b (uniqueOffersOf b sideOffers) lower upper).priceGroup =
      List.insertionSort leTotal (uniqueOffersOf b sideOffers) ∧
    (computeOptimal b (uniqueOffersOf b sideOffers) lower upper).priceGroup.Perm
      (uniqueOffersOf b sideOffers) ∧
    (∀ o, o ∈ (computeOptimal b (uniqueOffersOf b sideOffers) lower upper).priceGroup ↔
      o ∈ uniqueOffersOf b sideOffers) ∧
    (getProductData b sideOffers lower upper).effectiveSellersCount =
      (uniqueOffersOf b sideOffers).length := by
  have hb := bandSelection_short (u := uniqueOffersOf b sideOffers) lower upper hlt
  have hco : computeOptimal b (uniqueOffersOf b sideOffers) lower upper =
      bandSelection (uniqueOffersOf b sideOffers) lower upper := by
    simp [computeOptimal, hbt]
  have hpg : (computeOptimal b (uniqueOffersOf b sideOffers) lower upper).priceGroup =
      List.insertionSort leTotal (uniqueOffersOf b sideOffers) := by
    rw [hco, hb]
  refine ⟨?_, hpg, ?_, fun o => ?_, ?_⟩
  · simp [getProductData, computeOptimal, hbt, hb]
  · rw [hpg]
    exact List.perm_insertionSort leTotal _
  · rw [hpg]
    exact (List.perm_insertionSort leTotal _).mem_iff
  · simp [getProductData, computeOptimal, hbt, hb]

/-- C8 witness: exactly 2 unique offers and an untrusted buy-box give the
'N/A' optimal price, an eligible set containing exactly those unique offers,
and an effective sellers count of 2. -/
theorem c8_witness :
    ((getProductData ⟨none, "N/A", "N/A", 0, 0, "N/A"⟩
      [⟨1000, 0, "T", "M", "新品"⟩, ⟨1100, 0, "U", "M", "新品"⟩]
      lowerDefault upperDefault).optimalPrice = none ∧
    (computeOptimal ⟨none, "N/A", "N/A", 0, 0, "N/A"⟩
      (uniqueOffersOf ⟨none, "N/A", "N/A", 0, 0, "N/A"⟩
        [⟨1000, 0, "T", "M", "新品"⟩, ⟨1100, 0, "U", "M", "新品"⟩])
      lowerDefault upperDefault).priceGroup =
      List.insertionSort leTotal (uniqueOffersOf ⟨none, "N/A", "N/A", 0, 0, "N/A"⟩
        [⟨1000, 0, "T", "M", "新品"⟩, ⟨1100, 0, "U", "M", "新品"⟩]) ∧
    (computeOptimal ⟨none, "N/A", "N/A", 0, 0, "N/A"⟩
      (uniqueOffersOf ⟨none, "N/A", "N/A", 0, 0, "N/A"⟩
        [⟨1000, 0, "T", "M", "新品"⟩, ⟨1100, 0, "U", "M", "新品"⟩])
      lowerDefault upperDefault).priceGroup.Perm
      (uniqueOffersOf ⟨none, "N/A", "N/A", 0, 0, "N/A"⟩
        [⟨1000, 0, "T", "M", "新品"⟩, ⟨1100, 0, "U", "M", "新品"⟩]) ∧
    (∀ o, o ∈ (computeOptimal ⟨none, "N/A", "N/A", 0, 0, "N/A"⟩
      (uniqueOffersOf ⟨none, "N/A", "N/A", 0, 0, "N/A"⟩
        [⟨1000, 0, "T", "M", "新品"⟩, ⟨1100, 0, "U", "M", "新品"⟩])
      lowerDefault upperDefault).priceGroup ↔
      o ∈ uniqueOffersOf ⟨none, "N/A", "N/A", 0, 0, "N/A"⟩
        [⟨1000, 0, "T", "M", "新品"⟩, ⟨1100, 0, "U", "M", "新品"⟩]) ∧
    (getProductData ⟨none, "N/A", "N/A", 0, 0, "N/A"⟩
      [⟨1000, 0, "T", "M", "新品"⟩, ⟨1100, 0, "U", "M", "新品"⟩]
      lowerDefault upperDefault).effectiveSellersCount =
      (uniqueOffersOf ⟨none, "N/A", "N/A", 0, 0, "N/A"⟩
        [⟨1000, 0, "T", "M", "新品"⟩, ⟨1100, 0, "U", "M", "新品"⟩]).length) ∧
    (uniqueOffersOf ⟨none, "N/A", "N/A", 0, 0, "N/A"⟩
      [⟨1000, 0, "T", "M", "新品"⟩, ⟨1100, 0, "U", "M", "新品"⟩]).length = 2 :=
  ⟨c8_sparse_offers ⟨none, "N/A", "N/A", 0, 0, "N/A"⟩
    [⟨1000, 0, "T", "M", "新品"⟩, ⟨1100, 0, "U", "M", "新品"⟩]
    lowerDefault upperDefault rfl (by decide), by decide⟩

/-- C9: the stockStatus row field (index 4 of the success row) reads 十分
(sufficient) exactly when the buy-box has real stock above 2 and is
Amazon-fulfilled, or the inventory score is at least 4. -/
theorem c9_stock_status (d : SuccessData) :
    (successRow d).getD 4 (Cell.str "") = Cell.str "十分" ↔
      ((2 < d.realStock ∧ strContains d.buyboxInfo.shipper "Amazon" = true) ∨
        4 ≤ d.inventoryScore) := by
  have h1 : (successRow d).getD 4 (Cell.str "") = Cell.str (stockStatusStr d) := rfl
  have h2 : stockStatusStr d = "十分" ↔ stockSufficient d = true := by
    unfold stockStatusStr
    by_cases hc : stockSufficient d
    · simp [hc]
    · simp [hc, show ("不十分" : String) ≠ "十分" by decide]
  rw [h1, Cell.str.injEq, h2]
  simp [stockSufficient, Bool.or_eq_true, Bool.and_eq_true, decide_eq_true_eq]

/-! ### Projection and subset lemmas for the assembled result -/

theorem getProductData_optimal_eq (b : BuyBox) (sideOffers : List Offer)
    (lower upper : ℚ) :
    (getProductData b sideOffers lower upper).optimalPrice =
      (computeOptimal b (uniqueOffersOf b sideOffers) lower upper).optimalPrice ∧
    (getProductData b sideOffers lower upper).optimalPriceCondition =
      (computeOptimal b (uniqueOffersOf b sideOffers) lower upper).optimalPriceCondition ∧
    (getProductData b sideOffers lower upper).optimalPriceShipper =
      (computeOptimal b (uniqueOffersOf b sideOffers) lower upper).optimalPriceShipper ∧
    (getProductData b sideOffers lower upper).optimalPriceSeller =
      (computeOptimal b (uniqueOffersOf b sideOffers) lower upper).optimalPriceSeller ∧
    (getProductData b sideOffers lower upper).effectiveSellersCount =
      (computeOptimal b (uniqueOffersOf b sideOffers) lower upper).effectiveSellersCount :=
  ⟨rfl, rfl, rfl, rfl, rfl⟩

theorem computeOptimal_untrusted {b : BuyBox} (u : List Offer) (lower upper : ℚ)
    (hbt : buyboxTrusted b = false) :
    computeOptimal b u lower upper = bandSelection u lower upper := by
  simp [computeOptimal, hbt]

theorem computeOptimal_priceGroup_sub (b : BuyBox) (u : List Offer)
    (lower upper : ℚ) : ∀ o ∈ (computeOptimal b u lower upper).priceGroup, o ∈ u := by
  intro o ho
  unfold computeOptimal at ho
  split at ho
  · exact ho
  · by_cases h3 : 3 ≤ u.length
    · rw [(bandSelection_group lower upper h3).1] at ho
      unfold eligibleOf at ho
      exact (List.perm_insertionSort leTotal u).mem_iff.mp (List.mem_of_mem_filter ho)
    · rw [bandSelection_short lower upper (by omega)] at ho
      simp only [] at ho
      exact (List.perm_insertionSort leTotal u).mem_iff.mp ho

theorem getProductData_offers_sub (b : BuyBox) (sideOffers : List Offer)
    (lower upper : ℚ) :
    ∀ o ∈ (getProductData b sideOffers lower upper).offers,
      o ∈ uniqueOffersOf b sideOffers := by
  intro o ho
  have h1 : o ∈ (computeOptimal b (uniqueOffersOf b sideOffers) lower upper).priceGroup := by
    have hperm := (List.perm_insertionSort leTotal
      ((computeOptimal b (uniqueOffersOf b sideOffers) lower upper).priceGroup.filter
        fun o => !decide (offerKeyOpt o = buyboxKey b))).mem_iff.mp ho
    exact List.mem_of_mem_filter hperm
  exact computeOptimal_priceGroup_sub b _ lower upper o h1

/-- C10: with an untrusted buy-box, at least 3 unique offers, and multipliers
surrounding 1 (as the 0.85/1.15 defaults do), the reference offer's own total
lies inside the band, so the eligible set is non-empty and the effective
sellers count is at least 1. -/
theorem c10_reference_in_band (b : BuyBox) (sideOffers : List Offer)
    (lower upper : ℚ) (hbt : buyboxTrusted b = false)
    (h3 : 3 ≤ (uniqueOffersOf b sideOffers).length)
    (hl : lower ≤ 1) (hu : 1 ≤ upper) :
    1 ≤ (getProductData b sideOffers lower upper).effectiveSellersCount := by
  have heq : (getProductData b sideOffers lower upper).effectiveSellersCount =
      (eligibleOf (uniqueOffersOf b sideOffers) lower upper).length := by
    rw [(getProductData_optimal_eq b sideOffers lower upper).2.2.2.2,
      computeOptimal_untrusted _ lower upper hbt,
      (bandSelection_group lower upper h3).2]
  rw [heq]
  set u := uniqueOffersOf b sideOffers with hu'
  have hlen : 2 < (List.insertionSort leTotal u).length := by
    rw [List.length_insertionSort]; omega
  set r := (List.insertionSort leTotal u).getD 2 defaultOffer with hr
  have hmem : r ∈ List.insertionSort leTotal u := by
    rw [hr, List.getD_eq_getElem _ _ hlen]
    exact List.getElem_mem hlen
  have hband : inBand lower upper (totalPrice r) (totalPrice r) = true := by
    rw [inBand_iff]
    have hT : (0:ℚ) ≤ (totalPrice r : ℚ) := by positivity
    constructor
    · calc lower * (totalPrice r : ℚ) ≤ 1 * (totalPrice r : ℚ) :=
            mul_le_mul_of_nonneg_right hl hT
        _ = (totalPrice r : ℚ) := one_mul _
    · calc (totalPrice r : ℚ) = 1 * (totalPrice r : ℚ) := (one_mul _).symm
        _ ≤ upper * (totalPrice r : ℚ) := mul_le_mul_of_nonneg_right hu hT
  have : r ∈ eligibleOf u lower upper := by
    unfold eligibleOf
    exact List.mem_filter.mpr ⟨hmem, hband⟩
  have := List.length_pos.mpr (List.ne_nil_of_mem this)
  omega

/-- C10 witness: three offers, untrusted buy-box, default multipliers. -/
theorem c10_witness :
    1 ≤ (getProductData ⟨none, "N/A", "N/A", 0, 0, "N/A"⟩
      [⟨1000, 0, "T", "M", "新品"⟩, ⟨1100, 0, "U", "M", "新品"⟩,
       ⟨5000, 0, "V", "M", "新品"⟩]
      lowerDefault upperDefault).effectiveSellersCount :=
  c10_reference_in_band ⟨none, "N/A", "N/A", 0, 0, "N/A"⟩
    [⟨1000, 0, "T", "M", "新品"⟩, ⟨1100, 0, "U", "M", "新品"⟩,
     ⟨5000, 0, "V", "M", "新品"⟩]
    lowerDefault upperDefault rfl (by decide) (by decide) (by decide)

/-- C4: with an untrusted buy-box and at least 3 unique offers, the sorted
unique list is an ascending permutation of the unique set, the reference is
its entry at 0-based index 2, the eligible set is exactly the unique offers
whose total lies inclusively inside the rational band
`[reference*lower, reference*upper]`, and the effective sellers count is the
size of that eligible set. -/
theorem c4_band_filtering (b : BuyBox) (sideOffers : List Offer)
    (lower upper : ℚ) (hbt : buyboxTrusted b = false)
    (h3 : 3 ≤ (uniqueOffersOf b sideOffers).length) :
    List.Sorted leTotal (List.insertionSort leTotal (uniqueOffersOf b sideOffers)) ∧
    (List.insertionSort leTotal (uniqueOffersOf b sideOffers)).Perm
      (uniqueOffersOf b sideOffers) ∧
    (getProductData b sideOffers lower upper).effectiveSellersCount =
      ((uniqueOffersOf b sideOffers).filter fun o =>
        inBand lower upper
          (totalPrice ((List.insertionSort leTotal (uniqueOffersOf b sideOffers)).getD 2
            defaultOffer))
          (totalPrice o)).length ∧
    (∀ o, o ∈ eligibleOf (uniqueOffersOf b sideOffers) lower upper ↔
      o ∈ uniqueOffersOf b sideOffers ∧
      (lower * (totalPrice ((List.insertionSort leTotal (uniqueOffersOf b sideOffers)).getD 2
          defaultOffer) : ℚ) ≤ (totalPrice o : ℚ) ∧
        (totalPrice o : ℚ) ≤ upper * (totalPrice ((List.insertionSort leTotal
          (uniqueOffersOf b sideOffers)).getD 2 defaultOffer) : ℚ))) := by
  refine ⟨List.sorted_insertionSort leTotal _, List.perm_insertionSort leTotal _, ?_, ?_⟩
  · rw [(getProductData_optimal_eq b sideOffers lower upper).2.2.2.2,
      computeOptimal_untrusted _ lower upper hbt,
      (bandSelection_group lower upper h3).2]
    unfold eligibleOf
    exact ((List.perm_insertionSort leTotal (uniqueOffersOf b sideOffers)).filter _).length_eq
  · intro o
    unfold eligibleOf
    rw [List.mem_filter, inBand_iff,
      (List.perm_insertionSort leTotal (uniqueOffersOf b sideOffers)).mem_iff]

/-- C4 witness: offers with totals 1000/1100/1200/2000; the reference is 1200,
the default band is [1020, 1380], and exactly two offers fall inside. -/
theorem c4_witness :
    (getProductData ⟨none, "N/A", "N/A", 0, 0, "N/A"⟩
      [⟨1000, 0, "T", "M", "新品"⟩, ⟨1100, 0, "U", "M", "新品"⟩,
       ⟨1200, 0, "V", "M", "新品"⟩, ⟨2000, 0, "W", "M", "新品"⟩]
      lowerDefault upperDefault).effectiveSellersCount =
      ((uniqueOffersOf ⟨none, "N/A", "N/A", 0, 0, "N/A"⟩
        [⟨1000, 0, "T", "M", "新品"⟩, ⟨1100, 0, "U", "M", "新品"⟩,
         ⟨1200, 0, "V", "M", "新品"⟩, ⟨2000, 0, "W", "M", "新品"⟩]).filter fun o =>
        inBand lowerDefault upperDefault
          (totalPrice ((List.insertionSort leTotal
            (uniqueOffersOf ⟨none, "N/A", "N/A", 0, 0, "N/A"⟩
              [⟨1000, 0, "T", "M", "新品"⟩, ⟨1100, 0, "U", "M", "新品"⟩,
               ⟨1200, 0, "V", "M", "新品"⟩, ⟨2000, 0, "W", "M", "新品"⟩])).getD 2
            defaultOffer))
          (totalPrice o)).length ∧
    ((uniqueOffersOf ⟨none, "N/A", "N/A", 0, 0, "N/A"⟩
        [⟨1000, 0, "T", "M", "新品"⟩, ⟨1100, 0, "U", "M", "新品"⟩,
         ⟨1200, 0, "V", "M", "新品"⟩, ⟨2000, 0, "W", "M", "新品"⟩]).filter fun o =>
        inBand lowerDefault upperDefault
          (totalPrice ((List.insertionSort leTotal
            (uniqueOffersOf ⟨none, "N/A", "N/A", 0, 0, "N/A"⟩
              [⟨1000, 0, "T", "M", "新品"⟩, ⟨1100, 0, "U", "M", "新品"⟩,
               ⟨1200, 0, "V", "M", "新品"⟩, ⟨2000, 0, "W", "M", "新品"⟩])).getD 2
            defaultOffer))
          (totalPrice o)).length = 2 :=
  ⟨(c4_band_filtering ⟨none, "N/A", "N/A", 0, 0, "N/A"⟩
      [⟨1000, 0, "T", "M", "新品"⟩, ⟨1100, 0, "U", "M", "新品"⟩,
       ⟨1200, 0, "V", "M", "新品"⟩, ⟨2000, 0, "W", "M", "新品"⟩]
      lowerDefault upperDefault rfl (by decide)).2.2.1, by decide⟩

/-- C3: in the band branch, once the eligible set has at least 3 offers, the
optimal fields come from the median of the eligible set sorted ascending by
total price — index n/2 for odd n and the lower middle n/2 − 1 for even n —
and that sorted list really is an ascending permutation of the eligible set. -/
theorem c3_band_median (b : BuyBox) (sideOffers : List Offer) (lower upper : ℚ)
    (hbt : buyboxTrusted b = false)
    (h3 : 3 ≤ (uniqueOffersOf b sideOffers).length)
    (he : 3 ≤ (eligibleOf (uniqueOffersOf b sideOffers) lower upper).length) :
    (getProductData b sideOffers lower upper).optimalPrice =
      some (totalPrice (medianOf (uniqueOffersOf b sideOffers) lower upper)) ∧
    (getProductData b sideOffers lower upper).optimalPriceCondition =
      (medianOf (uniqueOffersOf b sideOffers) lower upper).condition ∧
    (getProductData b sideOffers lower upper).optimalPriceShipper =
      (medianOf (uniqueOffersOf b sideOffers) lower upper).shipper ∧
    (getProductData b sideOffers lower upper).optimalPriceSeller =
      (medianOf (uniqueOffersOf b sideOffers) lower upper).seller ∧
    List.Sorted leTotal (List.insertionSort leTotal
      (eligibleOf (uniqueOffersOf b sideOffers) lower upper)) ∧
    (List.insertionSort leTotal (eligibleOf (uniqueOffersOf b sideOffers) lower upper)).Perm
      (eligibleOf (uniqueOffersOf b sideOffers) lower upper) ∧
    medianOf (uniqueOffersOf b sideOffers) lower upper =
      (List.insertionSort leTotal (eligibleOf (uniqueOffersOf b sideOffers) lower upper)).getD
        (if (eligibleOf (uniqueOffersOf b sideOffers) lower upper).length % 2 = 1 then
          (eligibleOf (uniqueOffersOf b sideOffers) lower upper).length / 2
         else (eligibleOf (uniqueOffersOf b sideOffers) lower upper).length / 2 - 1)
        defaultOffer := by
  have hsel := bandSelection_median (u := uniqueOffersOf b sideOffers) lower upper h3 he
  have hproj := getProductData_optimal_eq b sideOffers lower upper
  have hco := computeOptimal_untrusted (uniqueOffersOf b sideOffers) lower upper hbt
  refine ⟨?_, ?_, ?_, ?_, List.sorted_insertionSort leTotal _,
    List.perm_insertionSort leTotal _, ?_⟩
  · rw [hproj.1, hco, hsel.1]
  · rw [hproj.2.1, hco, hsel.2.1]
  · rw [hproj.2.2.1, hco, hsel.2.2.1]
  · rw [hproj.2.2.2.1, hco, hsel.2.2.2]
  · unfold medianOf
    simp only []
    rw [List.length_insertionSort]

/-- C3 witness: an eligible set with total prices 100/110/120/130 (multiplier
band 0.8–1.15 around the reference 120 keeps all four) has even size 4, and
the lower middle element yields an optimal price of 110. -/
theorem c3_witness :
    (getProductData ⟨none, "N/A", "N/A", 0, 0, "N/A"⟩
      [⟨100, 0, "T", "M", "新品"⟩, ⟨110, 0, "U", "M", "新品"⟩,
       ⟨120, 0, "V", "M", "新品"⟩, ⟨130, 0, "W", "M", "新品"⟩]
      ⟨4, 5, by decide, by decide⟩ upperDefault).optimalPrice =
      some (totalPrice (medianOf (uniqueOffersOf ⟨none, "N/A", "N/A", 0, 0, "N/A"⟩
        [⟨100, 0, "T", "M", "新品"⟩, ⟨110, 0, "U", "M", "新品"⟩,
         ⟨120, 0, "V", "M", "新品"⟩, ⟨130, 0, "W", "M", "新品"⟩])
        ⟨4, 5, by decide, by decide⟩ upperDefault)) ∧
    totalPrice (medianOf (uniqueOffersOf ⟨none, "N/A", "N/A", 0, 0, "N/A"⟩
        [⟨100, 0, "T", "M", "新品"⟩, ⟨110, 0, "U", "M", "新品"⟩,
         ⟨120, 0, "V", "M", "新品"⟩, ⟨130, 0, "W", "M", "新品"⟩])
        ⟨4, 5, by decide, by decide⟩ upperDefault) = 110 :=
  ⟨(c3_band_median ⟨none, "N/A", "N/A", 0, 0, "N/A"⟩
      [⟨100, 0, "T", "M", "新品"⟩, ⟨110, 0, "U", "M", "新品"⟩,
       ⟨120, 0, "V", "M", "新品"⟩, ⟨130, 0, "W", "M", "新品"⟩]
      ⟨4, 5, by decide, by decide⟩ upperDefault rfl (by decide) (by decide)).1,
    by decide⟩

/-- C5: whenever a Success result resolves an optimal price (not the 'N/A'
sentinel), that price is the total price of some offer of the unique offer
set — never a synthesized value. -/
theorem c5_optimal_from_set (b : BuyBox) (sideOffers : List Offer)
    (lower upper : ℚ) (p : ℕ)
    (h : (getProductData b sideOffers lower upper).optimalPrice = some p) :
    ∃ o ∈ uniqueOffersOf b sideOffers, p = totalPrice o := by
  rw [(getProductData_optimal_eq b sideOffers lower upper).1] at h
  by_cases hbt : buyboxTrusted b = true
  · rw [computeOptimal, if_pos hbt] at h
    simp only [Option.some.injEq] at h
    have hps : b.price.isSome = true := by
      have hbt2 := hbt
      unfold buyboxTrusted at hbt2
      simp only [Bool.and_eq_true] at hbt2
      exact hbt2.1.2
    rcases Option.isSome_iff_exists.mp hps with ⟨q, hq⟩
    refine ⟨{ price := q, shippingFee := b.shippingFee, seller := b.seller,
              shipper := b.shipper, condition := b.condition }, ?_, ?_⟩
    · have hhead : uniqueOffersOf b sideOffers =
          { price := q, shippingFee := b.shippingFee, seller := b.seller,
            shipper := b.shipper, condition := b.condition } ::
            dedupAux sideOffers [(q, b.seller, b.shipper)] := by
        unfold uniqueOffersOf mergedOffers buyboxOffers dedupOffers
        rw [hq]
        simp [dedupAux, offerKey]
      rw [hhead]
      exact List.mem_cons_self _ _
    · rw [← h, hq]
      simp [totalPrice]
  · have hbt' : buyboxTrusted b = false := by
      cases hb : buyboxTrusted b
      · rfl
      · exact absurd hb hbt
    rw [computeOptimal_untrusted _ lower upper hbt'] at h
    by_cases h3 : 3 ≤ (uniqueOffersOf b sideOffers).length
    · by_cases he : 3 ≤ (eligibleOf (uniqueOffersOf b sideOffers) lower upper).length
      · have hmed := (bandSelection_median (u := uniqueOffersOf b sideOffers)
          lower upper h3 he).1
        rw [hmed] at h
        simp only [Option.some.injEq] at h
        refine ⟨medianOf (uniqueOffersOf b sideOffers) lower upper, ?_, h.symm⟩
        have hglen : 3 ≤ (List.insertionSort leTotal
            (eligibleOf (uniqueOffersOf b sideOffers) lower upper)).length := by
          rw [List.length_insertionSort]; exact he
        have hidx : (if (List.insertionSort leTotal
              (eligibleOf (uniqueOffersOf b sideOffers) lower upper)).length % 2 = 1 then
            (List.insertionSort leTotal
              (eligibleOf (uniqueOffersOf b sideOffers) lower upper)).length / 2
          else (List.insertionSort leTotal
              (eligibleOf (uniqueOffersOf b sideOffers) lower upper)).length / 2 - 1) <
            (List.insertionSort leTotal
              (eligibleOf (uniqueOffersOf b sideOffers) lower upper)).length := by
          split <;> omega
        have hmem : medianOf (uniqueOffersOf b sideOffers) lower upper ∈
            List.insertionSort leTotal
              (eligibleOf (uniqueOffersOf b sideOffers) lower upper) := by
          unfold medianOf
          rw [List.getD_eq_getElem _ _ hidx]
          exact List.getElem_mem hidx
        have hmem2 := (List.perm_insertionSort leTotal _).mem_iff.mp hmem
        unfold eligibleOf at hmem2
        exact (List.perm_insertionSort leTotal _).mem_iff.mp
          (List.mem_of_mem_filter hmem2)
      · rw [bandSelection_no_median lower upper h3 (by omega)] at h
        cases h
    · rw [bandSelection_short lower upper (by omega)] at h
      cases h

/-- C5 witness: a band-branch run resolving an optimal price of 120 exhibits
an offer of the unique set carrying exactly that total price. -/
theorem c5_witness :
    ∃ o ∈ uniqueOffersOf ⟨none, "N/A", "N/A", 0, 0, "N/A"⟩
      [⟨120, 5, "T", "M", "新品"⟩, ⟨125, 5, "U", "M", "新品"⟩,
       ⟨130, 5, "V", "M", "新品"⟩],
      130 = totalPrice o :=
  c5_optimal_from_set ⟨none, "N/A", "N/A", 0, 0, "N/A"⟩
    [⟨120, 5, "T", "M", "新品"⟩, ⟨125, 5, "U", "M", "新品"⟩,
     ⟨130, 5, "V", "M", "新品"⟩]
    lowerDefault upperDefault 130 (by decide)

/-! ### Extraction-side condition lemmas -/

theorem panel_offer_not_used {e : PanelEntry} {o : Offer}
    (h : parsePanelEntry e = some o) : strContains o.condition "中古" = false := by
  unfold parsePanelEntry at h
  cases hct : e.conditionText with
  | none => rw [hct] at h; cases h
  | some ct =>
    rw [hct] at h
    simp only [] at h
    by_cases hg : strContains (normalizeSpace ct) "中古" = true
    · rw [if_pos hg] at h; cases h
    · rw [if_neg hg] at h
      cases hp : cleanPrice e.priceText with
      | none => rw [hp] at h; cases h
      | some price =>
        rw [hp] at h
        simp only [Option.some.injEq] at h
        rw [← h]
        simpa using hg

theorem buybox_condition_cases (mp : MainPageInput) :
    (parseMainPageBuybox mp).condition = "新品" ∨
    (parseMainPageBuybox mp).condition = "N/A" := by
  unfold parseMainPageBuybox
  simp only []
  split <;> simp

theorem buybox_condition_of_priced (mp : MainPageInput) (p : ℕ)
    (hp : (parseMainPageBuybox mp).price = some p) :
    (parseMainPageBuybox mp).condition = "新品" := by
  unfold parseMainPageBuybox at hp ⊢
  simp only [] at hp ⊢
  rw [hp]
  rfl

/-- C6: in a result built from parsed pages, no offer of the unique
aggregation set (and hence none of the displayed offers) has a condition
containing the Used marker 中古 — Used panel entries are skipped at extraction
and never re-enter — and the buy-box condition is only ever 新品 (New) or the
N/A sentinel. -/
theorem c6_no_used_offers (mp : MainPageInput) (entries : List PanelEntry)
    (lower upper : ℚ) :
    (∀ o ∈ uniqueOffersOf (parseMainPageBuybox mp) (parseSidePanelOffers entries),
      strContains o.condition "中古" = false) ∧
    (∀ o ∈ (getProductData (parseMainPageBuybox mp)
        (parseSidePanelOffers entries) lower upper).offers,
      strContains o.condition "中古" = false) ∧
    ((parseMainPageBuybox mp).condition = "新品" ∨
      (parseMainPageBuybox mp).condition = "N/A") := by
  have hunique : ∀ o ∈ uniqueOffersOf (parseMainPageBuybox mp)
      (parseSidePanelOffers entries), strContains o.condition "中古" = false := by
    intro o ho
    have hm := mem_dedupOffers_sub ho
    unfold mergedOffers at hm
    rcases List.mem_append.mp hm with hb | hpanel
    · unfold buyboxOffers at hb
      cases hp : (parseMainPageBuybox mp).price with
      | none => rw [hp] at hb; cases hb
      | some p =>
        rw [hp] at hb
        rcases List.mem_singleton.mp hb with rfl
        have hcond := buybox_condition_of_priced mp p hp
        simp only [hcond]
        decide
    · rcases List.mem_filterMap.mp hpanel with ⟨e, _, he⟩
      exact panel_offer_not_used he
  exact ⟨hunique,
    fun o ho => hunique o (getProductData_offers_sub _ _ lower upper o ho),
    buybox_condition_cases mp⟩

/-- C6 witness: a panel with one 中古 (Used) entry and one new entry; the
kept offer's condition is free of the Used marker. -/
theorem c6_witness :
    strContains (Offer.condition ⟨800, 0, "T", "M", "新品"⟩) "中古" = false :=
  (c6_no_used_offers
    ⟨none, none, none, none⟩
    [⟨some "中古 - 良い", some "￥700", none, none, some "X", some "Y"⟩,
     ⟨some "新品", some "￥800", none, none, some "T", some "M"⟩]
    lowerDefault upperDefault).1 ⟨800, 0, "T", "M", "新品"⟩ (by decide)

end AmazonPrice
